import Mathlib

/-!
Verification of the VidParse-Pro input-resolution pipeline and the player
buffering state machine, as a shallow embedding of the TypeScript source
(`src/services/parserService.ts`, `src/components/VideoPlayer.tsx`).

JavaScript strings are modelled as Lean `String` (lists of Unicode scalar
values), JS numbers appearing as integer counters as `Nat`/`Int`, JS
truthiness of strings as non-emptiness, and each network call's response
as a field of an explicit environment record (`Env`): a `none` models a
fetch or `response.json()` that threw.  `Date.now()` is modelled by an
ambient clock parameter `now : Nat`.
-/

namespace VidParse

/-! ### JS character classes and string primitives -/

/-- The ECMAScript WhiteSpace ∪ LineTerminator set, used by both
`String.prototype.trim` and the regex class `\s`. -/
def isJsWhitespace (c : Char) : Bool :=
  c = ' ' || c = '\t' || c = '\n' || c = '\r' ||
  c.toNat = 0xB || c.toNat = 0xC || c.toNat = 0xA0 || c.toNat = 0x1680 ||
  (0x2000 ≤ c.toNat && c.toNat ≤ 0x200A) ||
  c.toNat = 0x2028 || c.toNat = 0x2029 || c.toNat = 0x202F ||
  c.toNat = 0x205F || c.toNat = 0x3000 || c.toNat = 0xFEFF

/-- Characters matched by `.` in a JS regex without the `s` flag:
anything but a LineTerminator. -/
def jsDot (c : Char) : Bool :=
  !(c = '\n' || c = '\r' || c.toNat = 0x2028 || c.toNat = 0x2029)

/-- Model of `String.prototype.trim`. -/
def jsTrim (s : String) : String :=
  String.mk (((s.data.dropWhile isJsWhitespace).reverse.dropWhile isJsWhitespace).reverse)

/-- `hasInfix hay needle` holds when `needle` occurs contiguously in `hay`. -/
def hasInfix : List Char → List Char → Bool
  | hay, needle =>
    needle.isPrefixOf hay ||
    match hay with
    | [] => false
    | _ :: rest => hasInfix rest needle

/-- Model of `s.includes(t)`: `t` occurs as a contiguous substring of `s`. -/
def jsIncludes (s t : String) : Bool :=
  hasInfix s.data t.data

/-- Model of `a || b` on JS strings (empty string is falsy). -/
def jsOr (a b : String) : String :=
  if a ≠ "" then a else b

/-! ### Regex matchers used by the classifier

Each JS regex of the source is embedded as an executable backtracking
matcher over `List Char`, scanning start positions left to right as
`String.prototype.match` does, and within one position trying
alternatives and quantifier lengths in the regex engine's order
(alternatives left to right, quantifiers greedy). -/

/-- Match a literal character sequence at the head; returns the rest. -/
def stripLit (pre : List Char) (s : List Char) : Option (List Char) :=
  if pre.isPrefixOf s then some (s.drop pre.length) else none

/-- Match exactly `n` characters of class `p` at the head; returns
(matched, rest). -/
def takeClass (p : Char → Bool) : Nat → List Char → Option (List Char × List Char)
  | 0, s => some ([], s)
  | _ + 1, [] => none
  | n + 1, c :: rest =>
    if p c then (takeClass p n rest).map (fun tr => (c :: tr.1, tr.2)) else none

/-- Greedy `p*` with continuation `k`: consume as many `p`-characters as
possible, backtracking to shorter runs when `k` fails. -/
def starMat (p : Char → Bool) : List Char → (List Char → Option String) → Option String
  | [], k => k []
  | c :: rest, k =>
    if p c then (starMat p rest k) <|> k (c :: rest) else k (c :: rest)

/-- Greedy `p+` with continuation `k`. -/
def plusMat (p : Char → Bool) (s : List Char) (k : List Char → Option String) : Option String :=
  match s with
  | [] => none
  | c :: rest => if p c then starMat p rest k else none

/-- Try `(BV[a-zA-Z0-9]{10})` at the head; group 1 (= whole match). -/
def bvAt (s : List Char) : Option String :=
  match s with
  | 'B' :: 'V' :: rest =>
    match takeClass Char.isAlphanum 10 rest with
    | some tr => some (String.mk ('B' :: 'V' :: tr.1))
    | none => none
  | _ => none

/-- Leftmost match of `/(BV[a-zA-Z0-9]{10})/`. -/
def bvFind : List Char → Option String
  | [] => none
  | c :: rest => bvAt (c :: rest) <|> bvFind rest

/-- Try `(?:av)([0-9]+)` at the head; returns group 1 (the digits,
greedy hence maximal). -/
def avAt : List Char → Option String
  | 'a' :: 'v' :: rest =>
    let ds := rest.takeWhile Char.isDigit
    if ds = [] then none else some (String.mk ds)
  | _ => none

/-- Leftmost match of `/(?:av)([0-9]+)/`. -/
def avFind : List Char → Option String
  | [] => none
  | c :: rest => avAt (c :: rest) <|> avFind rest

/-- Character class `[^"&?\/\s]` of the YouTube id capture. -/
def ytCapClass (c : Char) : Bool :=
  !(c = '"' || c = '&' || c = '?' || c = '/' || isJsWhitespace c)

/-- Try the capture `([^"&?\/\s]{11})` at the head. -/
def ytCapAt (s : List Char) : Option String :=
  (takeClass ytCapClass 11 s).map (fun tr => String.mk tr.1)

/-- Alternative `[^\/]+\/.+\/` followed by the id capture. -/
def ytAlt1a (s : List Char) : Option String :=
  plusMat (fun c => !(c = '/')) s (fun s1 =>
    match s1 with
    | '/' :: s2 => plusMat jsDot s2 (fun s3 =>
        match s3 with
        | '/' :: s4 => ytCapAt s4
        | _ => none)
    | _ => none)

/-- Alternative `(?:v|e(?:mbed)?)\/` followed by the id capture
(backtracking order: `v/`, `embed/`, `e/`). -/
def ytAlt1b (s : List Char) : Option String :=
  (match stripLit ['v', '/'] s with
   | some s1 => ytCapAt s1
   | none => none) <|>
  (match stripLit "embed/".data s with
   | some s1 => ytCapAt s1
   | none => none) <|>
  (match stripLit ['e', '/'] s with
   | some s1 => ytCapAt s1
   | none => none)

/-- Alternative `.*[?&]v=` followed by the id capture (`.*` greedy). -/
def ytAlt1c (s : List Char) : Option String :=
  starMat jsDot s (fun s1 =>
    match s1 with
    | c :: 'v' :: '=' :: s4 => if c = '?' || c = '&' then ytCapAt s4 else none
    | _ => none)

/-- Try the whole YouTube regex
`/(?:youtube\.com\/(?:[^\/]+\/.+\/|(?:v|e(?:mbed)?)\/|.*[?&]v=)|youtu\.be\/)([^"&?\/\s]{11})/`
at the head; returns group 1. -/
def ytAt (s : List Char) : Option String :=
  (match stripLit "youtube.com/".data s with
   | some s1 => ytAlt1a s1 <|> ytAlt1b s1 <|> ytAlt1c s1
   | none => none) <|>
  (match stripLit "youtu.be/".data s with
   | some s1 => ytCapAt s1
   | none => none)

/-- Leftmost match of the YouTube regex. -/
def ytFind : List Char → Option String
  | [] => none
  | c :: rest => ytAt (c :: rest) <|> ytFind rest

/-- Model of `url.match(/\.(mp4|webm|ogg|mov)$/i) !== null`: the string
ends in one of the media extensions, ASCII case-insensitively. -/
def mediaExtMatch (url : String) : Bool :=
  let l := url.data.map Char.toLower
  ".mp4".data.isSuffixOf l || ".webm".data.isSuffixOf l ||
  ".ogg".data.isSuffixOf l || ".mov".data.isSuffixOf l

/-- Try `/https?:\/\/(?:www|m)\.bilibili\.com\/video\/(BV[a-zA-Z0-9]{10})/`
at the head; returns (whole match, group 1). -/
def biliUrlAt (s : List Char) : Option (String × String) :=
  let afterHost := fun (scheme hostPart : String) (s4 : List Char) =>
    match stripLit ".bilibili.com/video/".data s4 with
    | none => none
    | some s5 =>
      match bvAt s5 with
      | some id =>
        some ("http" ++ scheme ++ "://" ++ hostPart ++ ".bilibili.com/video/" ++ id, id)
      | none => none
  let afterScheme := fun (scheme : String) (s2 : List Char) =>
    match stripLit "://".data s2 with
    | none => none
    | some s3 =>
      (match stripLit "www".data s3 with
       | some s4 => afterHost scheme "www" s4
       | none => none) <|>
      (match stripLit "m".data s3 with
       | some s4 => afterHost scheme "m" s4
       | none => none)
  match stripLit "http".data s with
  | none => none
  | some s1 =>
    (match stripLit "s".data s1 with
     | some s2 => afterScheme "s" s2
     | none => none) <|> afterScheme "" s1

/-- Leftmost match of the canonical Bilibili video URL regex. -/
def biliUrlFind : List Char → Option (String × String)
  | [] => none
  | c :: rest => biliUrlAt (c :: rest) <|> biliUrlFind rest

/-! ### `encodeURIComponent` and `decodeURIComponent` -/

/-- UTF-8 byte sequence of one Unicode scalar value. -/
def utf8Bytes (c : Char) : List Nat :=
  let n := c.toNat
  if n < 0x80 then [n]
  else if n < 0x800 then [0xC0 + n / 64, 0x80 + n % 64]
  else if n < 0x10000 then
    [0xE0 + n / 4096, 0x80 + (n / 64) % 64, 0x80 + n % 64]
  else
    [0xF0 + n / 262144, 0x80 + (n / 4096) % 64, 0x80 + (n / 64) % 64, 0x80 + n % 64]

/-- Upper-case hexadecimal digit, as `encodeURIComponent` emits. -/
def hexDigit (n : Nat) : Char :=
  "0123456789ABCDEF".data.getD n '0'

/-- `%XX` escape of one octet. -/
def pctEncodeByte (b : Nat) : List Char :=
  ['%', hexDigit (b / 16), hexDigit (b % 16)]

/-- The characters `encodeURIComponent` leaves unescaped:
`A-Z a-z 0-9 - _ . ! ~ * ' ( )`. -/
def isUriUnreserved (c : Char) : Bool :=
  c.isAlphanum || c = '-' || c = '_' || c = '.' || c = '!' ||
  c = '~' || c = '*' || c.toNat = 39 || c = '(' || c = ')'

/-- Model of `encodeURIComponent`. -/
def encodeURIComponent (s : String) : String :=
  String.mk (s.data.flatMap (fun c =>
    if isUriUnreserved c then [c] else (utf8Bytes c).flatMap pctEncodeByte))

/-- Value of one hexadecimal digit, or `none`. -/
def hexVal (c : Char) : Option Nat :=
  if '0' ≤ c ∧ c ≤ '9' then some (c.toNat - 48)
  else if 'A' ≤ c ∧ c ≤ 'F' then some (c.toNat - 55)
  else if 'a' ≤ c ∧ c ≤ 'f' then some (c.toNat - 87)
  else none

/-- Octet value of two hexadecimal digits, or `none`. -/
def hexVal2 (h l : Char) : Option Nat :=
  match hexVal h, hexVal l with
  | some hv, some lv => some (hv * 16 + lv)
  | _, _ => none

/-- Whether an octet is a UTF-8 continuation byte `80..BF`. -/
def isContByte (b : Nat) : Bool :=
  0x80 ≤ b && b < 0xC0

/-- Model of the ECMAScript Decode algorithm used by `decodeURIComponent`:
unescaped characters pass through; a `%` must begin a complete, valid
UTF-8 escape sequence (every byte of a multi-byte sequence itself
escaped), otherwise the call throws `URIError`, modelled as `none`. -/
def decodeChars : List Char → Option (List Char)
  | [] => some []
  | '%' :: h :: l :: rest =>
    match hexVal2 h l with
    | none => none
    | some b1 =>
      if b1 < 0x80 then
        (decodeChars rest).map (fun cs => Char.ofNat b1 :: cs)
      else if b1 < 0xC2 then none
      else if b1 < 0xE0 then
        match rest with
        | '%' :: h2 :: l2 :: rest2 =>
          match hexVal2 h2 l2 with
          | some b2 =>
            if isContByte b2 then
              (decodeChars rest2).map (fun cs => Char.ofNat ((b1 - 0xC0) * 64 + (b2 - 0x80)) :: cs)
            else none
          | none => none
        | _ => none
      else if b1 < 0xF0 then
        match rest with
        | '%' :: h2 :: l2 :: '%' :: h3 :: l3 :: rest3 =>
          match hexVal2 h2 l2, hexVal2 h3 l3 with
          | some b2, some b3 =>
            if isContByte b2 && isContByte b3 then
              let n := (b1 - 0xE0) * 4096 + (b2 - 0x80) * 64 + (b3 - 0x80)
              if 0x800 ≤ n ∧ ¬(0xD800 ≤ n ∧ n ≤ 0xDFFF) then
                (decodeChars rest3).map (fun cs => Char.ofNat n :: cs)
              else none
            else none
          | _, _ => none
        | _ => none
      else if b1 < 0xF5 then
        match rest with
        | '%' :: h2 :: l2 :: '%' :: h3 :: l3 :: '%' :: h4 :: l4 :: rest4 =>
          match hexVal2 h2 l2, hexVal2 h3 l3, hexVal2 h4 l4 with
          | some b2, some b3, some b4 =>
            if isContByte b2 && isContByte b3 && isContByte b4 then
              let n := (b1 - 0xF0) * 262144 + (b2 - 0x80) * 4096 + (b3 - 0x80) * 64 + (b4 - 0x80)
              if 0x10000 ≤ n ∧ n ≤ 0x10FFFF then
                (decodeChars rest4).map (fun cs => Char.ofNat n :: cs)
              else none
            else none
          | _, _, _ => none
        | _ => none
      else none
  | '%' :: _ => none
  | c :: rest => (decodeChars rest).map (fun cs => c :: cs)

/-- Model of `decodeURIComponent`; `none` models a thrown `URIError`. -/
def decodeURIComponent (s : String) : Option String :=
  (decodeChars s.data).map String.mk

/-! ### Data model (`src/types.ts`) -/

/-- `ParsedVideoData.platform ∈ {youtube, bilibili, direct, unknown}`. -/
inductive Platform where
  | youtube
  | bilibili
  | direct
  | unknown
deriving DecidableEq

/-- `ParsedVideoData.playerType ∈ {native, iframe}`. -/
inductive PlayerType where
  | native
  | iframe
deriving DecidableEq

/-- `VideoSource` of `src/types.ts`; `size` and `isDownloadable` are
optional fields. -/
structure VideoSource where
  url : String
  format : String
  quality : String
  size : Option String
  isDownloadable : Option Bool
deriving DecidableEq

/-- `ParsedVideoData` of `src/types.ts` (the optional `aiSummary`
enrichment field is external to the core and never set by
`parseVideoInput`, so it is omitted). -/
structure ParsedVideoData where
  id : String
  title : String
  platform : Platform
  playerType : PlayerType
  thumbnailUrl : Option String
  duration : Option String
  sources : List VideoSource
  description : Option String
deriving DecidableEq

/-! ### Network environment

One record per network call site of `parseVideoInput`; a `none` at the
outer layer models a `fetch`/`response.json()` that threw. -/

/-- Body of the short-link proxy response (`data.status?.url`,
`data.contents`); the empty string models an absent or falsy field,
exactly matching every JS truthiness test applied to them. -/
structure ShortResp where
  statusUrl : String
  contents : String
deriving DecidableEq

/-- `json.data` of the Bilibili metadata endpooint; empty string / `0`
model absent or falsy fields, matching the JS truthiness tests. -/
structure BiliMeta where
  title : String
  pic : String
  desc : String
  duration : Nat
deriving DecidableEq

/-- Envelope of the Bilibili metadata endpoint (`{code, data}`). -/
structure MetaResp where
  code : Int
  data : BiliMeta
deriving DecidableEq

/-- Parsed body of the third-party stream-resolution endpoint
(`{code, url}`); a missing `url` is the empty string (falsy). -/
structure StreamJson where
  code : Int
  url : String
deriving DecidableEq

/-- Responses of the three proxied calls a single `parseVideoInput`
invocation can make.  For `stream`, the outer `none` models a network
error (the `fetch` threw), the inner `none` a body on which
`JSON.parse` threw (or produced a falsy value). -/
structure Env where
  short : Option ShortResp
  meta : Option MetaResp
  stream : Option (Option StreamJson)
deriving DecidableEq

/-! ### URL construction (`parserService.ts` constants and templates) -/

def PROXY_RAW : String := "https://api.allorigins.win/raw?url="
def PROXY_JSON : String := "https://api.allorigins.win/get?url="
def PARSER_API : String := "https://api.injahow.cn/bparse/"

/-- Short-link resolution request (line 19 / 205):
`PROXY_JSON + encodeURIComponent(url) + "&t=" + Date.now()`. -/
def shortResolveUrl (url : String) (now : Nat) : String :=
  PROXY_JSON ++ encodeURIComponent url ++ "&t=" ++ toString now

/-- Inner Bilibili metadata endpoint URL (lines 44-45 / 244-245). -/
def metaApiUrl (bvid avid : String) : String :=
  "https://api.bilibili.com/x/web-interface/view?" ++
    (if bvid ≠ "" then "bvid=" ++ bvid else "aid=" ++ avid)

/-- Proxied metadata request (line 46 / 246). -/
def metaProxyUrl (bvid avid : String) (now : Nat) : String :=
  PROXY_RAW ++ encodeURIComponent (metaApiUrl bvid avid) ++ "&t=" ++ toString now

/-- Inner third-party parser target URL (lines 61-62 / 260-261):
`PARSER_API + "?" + idParam + "&p=1&q=80&format=mp4&otype=json"` —
note that no timestamp parameter is appended here. -/
def streamParseUrl (bvid avid : String) : String :=
  PARSER_API ++ "?" ++ (if bvid ≠ "" then "bv=" ++ bvid else "av=" ++ avid) ++
    "&p=1&q=80&format=mp4&otype=json"

/-- Outer proxied stream-resolution request (lines 64-65 / 263-264):
`PROXY_RAW + encodeURIComponent(parseUrl) + "&t=" + Date.now()`. -/
def streamProxyUrl (bvid avid : String) (now : Nat) : String :=
  PROXY_RAW ++ encodeURIComponent (streamParseUrl bvid avid) ++ "&t=" ++ toString now

/-! ### The resolution pipeline (`parseVideoInput`, first version, lines 10-186) -/

/-- Metadata block, lines 42-53: `metaData = json.code === 0 ? json.data : {}`,
with `{}` modelled as the all-falsy record. -/
def biliMetaOf (env : Env) : BiliMeta :=
  match env.meta with
  | some r => if r.code = 0 then r.data else ⟨"", "", "", 0⟩
  | none => ⟨"", "", "", 0⟩

/-- Stream block, lines 57-86: returns `(directUrl, parseError)`.
`directUrl` is set only when the parsed body is truthy with
`code === 0` and a truthy `url`. -/
def resolveStream (env : Env) : String × Bool :=
  match env.stream with
  | none => ("", true)
  | some none => ("", true)
  | some (some j) => if j.code = 0 ∧ j.url ≠ "" then (j.url, false) else ("", true)

/-- `formatDuration`, lines 182-186: minutes unpadded, seconds
zero-padded, no hour field. -/
def formatDuration (seconds : Nat) : String :=
  toString (seconds / 60) ++ ":" ++
    (if seconds % 60 < 10 then "0" else "") ++ toString (seconds % 60)

/-- Bilibili branch, lines 40-143 (identical to lines 240-335 of the
second version): fetch metadata and the direct stream URL, then return
the native result when `directUrl` is truthy and the iframe embed
fallback otherwise. -/
def bilibiliResult (env : Env) (bvid avid : String) : ParsedVideoData :=
  let md := biliMetaOf env
  let title := jsOr md.title ("Bilibili 视频 (" ++ jsOr bvid avid ++ ")")
  let dur := if md.duration ≠ 0 then formatDuration md.duration else ""
  let directUrl := (resolveStream env).1
  if directUrl ≠ "" then
    { id := jsOr bvid avid
      title := title
      platform := .bilibili
      playerType := .native
      thumbnailUrl := some md.pic
      duration := some dur
      sources := [⟨directUrl, "MP4 (Direct)", "High (q=80)", some "Unknown", some true⟩]
      description := some md.desc }
  else
    { id := jsOr bvid avid
      title := title
      platform := .bilibili
      playerType := .iframe
      thumbnailUrl := some md.pic
      duration := some dur
      sources := [⟨"//player.bilibili.com/player.html?" ++
                    (if bvid ≠ "" then "bvid=" ++ bvid else "aid=" ++ avid) ++
                    "&high_quality=1&danmaku=0",
                  "Embed", "Auto", some "N/A", some false⟩]
      description := some md.desc }

/-- YouTube branch, lines 149-162 / 341-354. -/
def youtubeResult (videoId : String) : ParsedVideoData :=
  { id := videoId
    title := "YouTube 视频"
    platform := .youtube
    playerType := .iframe
    thumbnailUrl := some ("https://img.youtube.com/vi/" ++ videoId ++ "/maxresdefault.jpg")
    duration := none
    sources := [⟨"https://www.youtube.com/embed/" ++ videoId, "Embed", "Auto",
                  some "N/A", some false⟩,
                ⟨"https://youtu.be/" ++ videoId, "Source", "Original",
                  some "External", some true⟩]
    description := none }

/-- Model of `String.prototype.split` with a one-character separator:
splits at every occurrence, keeping empty segments, never empty. -/
def splitOnChar (sep : Char) : List Char → List (List Char)
  | [] => [[]]
  | c :: rest =>
    match splitOnChar sep rest with
    | [] => [[c]]
    | g :: gs => if c = sep then [] :: g :: gs else (c :: g) :: gs

/-- `url.split('/').pop() || '未命名视频'`, line 167 / 359. -/
def fileNameOf (url : String) : String :=
  jsOr (((splitOnChar '/' url.data).map String.mk).getLastD "") "未命名视频"

/-- Direct-file branch, lines 166-177 / 358-369; `none` models the
uncaught `URIError` that `decodeURIComponent` throws on a malformed
percent escape in the file name. -/
def directResult (url : String) : Option ParsedVideoData :=
  (decodeURIComponent (fileNameOf url)).map (fun t =>
    { id := "direct_file"
      title := t
      platform := .direct
      playerType := .native
      thumbnailUrl := none
      duration := none
      sources := [⟨url, "Original", "Source", some "Unknown", some true⟩]
      description := none })

instance {ε α : Type} [DecidableEq ε] [DecidableEq α] : DecidableEq (Except ε α) := fun x y =>
  match x, y with
  | .ok a, .ok b =>
    if h : a = b then isTrue (by rw [h]) else isFalse (fun hh => h (Except.ok.inj hh))
  | .error a, .error b =>
    if h : a = b then isTrue (by rw [h]) else isFalse (fun hh => h (Except.error.inj hh))
  | .ok _, .error _ => isFalse (fun hh => Except.noConfusion hh)
  | .error _, .ok _ => isFalse (fun hh => Except.noConfusion hh)

/-- Result of one `parseVideoInput` invocation: the proxied request URLs
issued, in order, and the settled promise (`Except.error` models a
rejection). -/
structure ParseOut where
  requests : List String
  result : Except String ParsedVideoData
deriving DecidableEq

/-- Steps A-C and 3-4 shared verbatim by both versions (lines 40-179 and
240-371): branch on the extracted identifiers, then YouTube, then the
direct-file check, else throw `"Format not supported"`. -/
def parseBody (env : Env) (now : Nat) (url bvid avid : String) : ParseOut :=
  if bvid ≠ "" ∨ avid ≠ "" then
    ⟨[metaProxyUrl bvid avid now, streamProxyUrl bvid avid now],
     .ok (bilibiliResult env bvid avid)⟩
  else
    match ytFind url.data with
    | some videoId => ⟨[], .ok (youtubeResult videoId)⟩
    | none =>
      if mediaExtMatch url then
        match directResult url with
        | some d => ⟨[], .ok d⟩
        | none => ⟨[], .error "URIError: URI malformed"⟩
      else ⟨[], .error "Format not supported"⟩

/-- Short-link block of the first version, lines 16-31: on a followed
redirect take `data.status.url` unconditionally; otherwise scan the raw
page contents for a BV id.  Returns the (possibly replaced) url and the
bvid found so far. -/
def resolveShort1 (env : Env) (url : String) : String × String :=
  match env.short with
  | none => (url, "")
  | some r =>
    if r.statusUrl ≠ "" then (r.statusUrl, "")
    else if r.contents ≠ "" then
      match bvFind r.contents.data with
      | some id => (url, id)
      | none => (url, "")
    else (url, "")

/-- Steps 1-2 of the first version (lines 11-38): trim, resolve a
b23.tv short link, then re-extract ids from `url` unconditionally
(`avid` is only set when the BV match fails). -/
def step12v1 (env : Env) (input : String) : String × String × String :=
  let url0 := jsTrim input
  let ub := if jsIncludes url0 "b23.tv" then resolveShort1 env url0 else (url0, "")
  match bvFind ub.1.data with
  | some id => (ub.1, id, "")
  | none =>
    match avFind ub.1.data with
    | some d => (ub.1, ub.2, d)
    | none => (ub.1, ub.2, "")

/-- `parseVideoInput`, first version (lines 10-186). -/
def parseVideoInput (env : Env) (now : Nat) (input : String) : ParseOut :=
  let url0 := jsTrim input
  let pre := if jsIncludes url0 "b23.tv" then [shortResolveUrl url0 now] else []
  let t := step12v1 env input
  let b := parseBody env now t.1 t.2.1 t.2.2
  ⟨pre ++ b.requests, b.result⟩

/-- Short-link block of the second version, lines 202-229: the followed
redirect is used only when it no longer contains `b23.tv`; the contents
fallback first looks for a canonical `bilibili.com/video/BV…` URL
(taking both the url and the id) and only then for a bare BV id. -/
def resolveShort2 (env : Env) (url : String) : String × String :=
  match env.short with
  | none => (url, "")
  | some r =>
    if r.statusUrl ≠ "" ∧ ¬(jsIncludes r.statusUrl "b23.tv" = true) then (r.statusUrl, "")
    else if r.contents ≠ "" then
      match biliUrlFind r.contents.data with
      | some wi => (wi.1, wi.2)
      | none =>
        match bvFind r.contents.data with
        | some id => (url, id)
        | none => (url, "")
    else (url, "")

/-- Steps 1-2 of the second version (lines 197-238): as `step12v1`, but
re-extraction is guarded by `if (!bvid)`. -/
def step12v2 (env : Env) (input : String) : String × String × String :=
  let url0 := jsTrim input
  let ub := if jsIncludes url0 "b23.tv" then resolveShort2 env url0 else (url0, "")
  if ub.2 ≠ "" then (ub.1, ub.2, "")
  else
    match bvFind ub.1.data with
    | some id => (ub.1, id, "")
    | none =>
      match avFind ub.1.data with
      | some d => (ub.1, "", d)
      | none => (ub.1, "", "")

/-- `parseVideoInput`, second version (lines 196-378). -/
def parseVideoInput2 (env : Env) (now : Nat) (input : String) : ParseOut :=
  let url0 := jsTrim input
  let pre := if jsIncludes url0 "b23.tv" then [shortResolveUrl url0 now] else []
  let t := step12v2 env input
  let b := parseBody env now t.1 t.2.1 t.2.2
  ⟨pre ++ b.requests, b.result⟩

/-! ### Player buffering state machine (`src/components/VideoPlayer.tsx`)

The download effect (lines 31-113) is modelled in three layers:
the sequence of progress values written during a read loop
(`successTrace`), the terminal state transition performed by the
continuation after the loop or in the `catch` (`finishFetch`), and the
object-URL lifecycle across effect runs (`pstep`).  JS floating-point
progress arithmetic is modelled over `ℚ`. -/

/-- Running values of `loaded` after each chunk of the read loop
(line 78: `loaded += value.length`). -/
def runningTotals : List Nat → Nat → List Nat
  | [], _ => []
  | c :: rest, acc => (acc + c) :: runningTotals rest (acc + c)

/-- Progress written for one chunk (line 80):
`Math.min(loaded / total * 100, 99)`. -/
def reportAt (total loaded : Nat) : ℚ :=
  min ((loaded : ℚ) / (total : ℚ) * 100) 99

/-- Progress values written during the read loop; nothing is written
when no content-length is known (`total = 0`, line 79). -/
def progressReports (total : Nat) (chunks : List Nat) : List ℚ :=
  if 0 < total then (runningTotals chunks 0).map (reportAt total) else []

/-- All progress values observable over one successful, non-aborted
download: the reset to `0` (line 35), the loop reports, and the final
`setDownloadProgress(100)` (line 90). -/
def successTrace (total : Nat) (chunks : List Nat) : List ℚ :=
  (0 : ℚ) :: (progressReports total chunks ++ [100])

/-- Player download state touched by the fetch continuation. -/
structure PlayerSt where
  blobUrl : Option String
  downloadProgress : ℚ
  isDownloading : Bool
  useDirectStream : Bool
deriving DecidableEq

/-- How one in-flight transfer ends: the read loop completed and an
object URL was minted, or the fetch/read rejected (`isAbortError`
distinguishes `err.name === 'AbortError'`). -/
inductive FetchOutcome where
  | success (objectUrl : String)
  | failure (isAbortError : Bool)
deriving DecidableEq

/-- Terminal transition of `fetchVideo` (lines 85-104): on success the
state is written only under `if (!isAborted)`; an `AbortError` is only
logged; any other failure transitions to the direct-stream fallback,
again only under `if (!isAborted)`. -/
def finishFetch (o : FetchOutcome) (isAborted : Bool) (st : PlayerSt) : PlayerSt :=
  match o with
  | .success objectUrl =>
    if isAborted then st
    else { st with blobUrl := some objectUrl, downloadProgress := 100, isDownloading := false }
  | .failure true => st
  | .failure false =>
    if isAborted then st
    else { st with useDirectStream := true, isDownloading := false }

/-- Object-URL lifecycle state of one mounted player: the ids of all
object URLs created and not yet revoked (`live`), the one referenced by
the `blobUrl` state (`held`), and a fresh-id counter. -/
structure BlobSys where
  live : List Nat
  held : Option Nat
  next : Nat
deriving DecidableEq

/-- Lifecycle events of the download effect. -/
inductive PEvent where
  | newSource
  | finishSuccess (isAborted : Bool)
  | cleanup
deriving DecidableEq

/-- Object-URL effect of each event.  `newSource` is the start of an
effect run (lines 40-43): revoke the held URL, null the handle.
`finishSuccess` is a completed read loop (lines 85-92):
`URL.createObjectURL` always runs, `setBlobUrl` only when not aborted.
`cleanup` is the effect destructor (lines 109-112): it only sets
`isAborted` and calls `controller.abort()` — no revocation. -/
def pstep : BlobSys → PEvent → BlobSys
  | s, .newSource =>
    match s.held with
    | some i => { live := s.live.erase i, held := none, next := s.next }
    | none => s
  | s, .finishSuccess isAborted =>
    { live := s.live ++ [s.next],
      held := if isAborted then s.held else some s.next,
      next := s.next + 1 }
  | s, .cleanup => s

/-- Run a sequence of lifecycle events from the freshly mounted state. -/
def runTrace (evs : List PEvent) : BlobSys :=
  evs.foldl pstep ⟨[], none, 0⟩

/-! ### Helper lemmas -/

/-- The platform of any Bilibili-branch result is `bilibili`. -/
lemma bilibiliResult_platform (env : Env) (bvid avid : String) :
    (bilibiliResult env bvid avid).platform = .bilibili := by
  simp only [bilibiliResult]
  split <;> rfl

/-- Stream-resolution success: parsed body with `code = 0` and a
non-empty `url` yields that url and no parse error. -/
lemma resolveStream_success {env : Env} {u : String}
    (hs : env.stream = some (some ⟨0, u⟩)) (hu : u ≠ "") :
    resolveStream env = (u, false) := by
  simp only [resolveStream, hs]
  exact if_pos ⟨trivial, hu⟩

/-- Stream-resolution failure: network error, unparsable body, non-zero
code or empty url all yield an empty `directUrl` and `parseError`. -/
lemma resolveStream_fail {env : Env}
    (h : env.stream = none ∨ env.stream = some none ∨
         ∃ j, env.stream = some (some j) ∧ (j.code ≠ 0 ∨ j.url = "")) :
    resolveStream env = ("", true) := by
  rcases h with h | h | ⟨j, hj, hcase⟩
  · simp [resolveStream, h]
  · simp [resolveStream, h]
  · simp only [resolveStream, hj]
    rw [if_neg]
    rintro ⟨h0, hu⟩
    rcases hcase with hc | hc
    · exact hc h0
    · exact hu hc

/-- On stream success the Bilibili branch returns the native record with
the single downloadable direct source. -/
lemma bilibiliResult_native {env : Env} {u : String}
    (hs : resolveStream env = (u, false)) (hu : u ≠ "") (bvid avid : String) :
    (bilibiliResult env bvid avid).playerType = .native ∧
    (bilibiliResult env bvid avid).sources =
      [⟨u, "MP4 (Direct)", "High (q=80)", some "Unknown", some true⟩] := by
  simp only [bilibiliResult, hs]
  rw [if_pos hu]
  exact ⟨rfl, rfl⟩

/-- On stream failure the Bilibili branch returns the iframe record with
a single non-downloadable embed source. -/
lemma bilibiliResult_iframe {env : Env}
    (hs : resolveStream env = ("", true)) (bvid avid : String) :
    (bilibiliResult env bvid avid).playerType = .iframe ∧
    ∃ s, (bilibiliResult env bvid avid).sources = [s] ∧ s.isDownloadable = some false := by
  simp only [bilibiliResult, hs]
  rw [if_neg (by simp)]
  exact ⟨rfl, _, rfl, rfl⟩

/-- When an identifier was extracted, `parseVideoInput` settles with the
Bilibili-branch result. -/
lemma parseVideoInput_result_bili (env : Env) (now : Nat) (input : String)
    (hid : (step12v1 env input).2.1 ≠ "" ∨ (step12v1 env input).2.2 ≠ "") :
    (parseVideoInput env now input).result =
      .ok (bilibiliResult env (step12v1 env input).2.1 (step12v1 env input).2.2) := by
  show (parseBody env now (step12v1 env input).1 (step12v1 env input).2.1
          (step12v1 env input).2.2).result = _
  simp only [parseBody]
  rw [if_pos hid]

/-- Every value of `progressReports` is a `reportAt` value. -/
lemma mem_progressReports {total : Nat} {chunks : List Nat} {q : ℚ}
    (h : q ∈ progressReports total chunks) : ∃ loaded, q = reportAt total loaded := by
  simp only [progressReports] at h
  split at h
  · obtain ⟨l, _, rfl⟩ := List.mem_map.mp h
    exact ⟨l, rfl⟩
  · cases h

/-- Loop progress is capped at 99 (line 80 of `VideoPlayer.tsx`). -/
lemma reportAt_le_99 (total loaded : Nat) : reportAt total loaded ≤ 99 :=
  min_le_right _ _

/-- Loop progress is non-negative. -/
lemma reportAt_nonneg (total loaded : Nat) : 0 ≤ reportAt total loaded :=
  le_min (by positivity) (by norm_num)

/-- Loop progress is monotone in the bytes read. -/
lemma reportAt_mono (total : Nat) {a b : Nat} (h : a ≤ b) :
    reportAt total a ≤ reportAt total b := by
  unfold reportAt
  have hd : (a : ℚ) / (total : ℚ) ≤ (b : ℚ) / (total : ℚ) := by
    rw [div_eq_mul_inv, div_eq_mul_inv]
    exact mul_le_mul_of_nonneg_right (by exact_mod_cast h) (inv_nonneg.mpr (by positivity))
  exact min_le_min (mul_le_mul_of_nonneg_right hd (by norm_num)) le_rfl

/-- The running byte totals form a non-decreasing list bounded below by
the accumulator. -/
lemma runningTotals_chain (chunks : List Nat) (acc : Nat) :
    List.Chain' (· ≤ ·) (runningTotals chunks acc) ∧
    ∀ x ∈ runningTotals chunks acc, acc ≤ x := by
  induction chunks generalizing acc with
  | nil => exact ⟨List.chain'_nil, by simp [runningTotals]⟩
  | cons c rest ih =>
    obtain ⟨ihc, ihm⟩ := ih (acc + c)
    refine ⟨List.chain'_cons'.mpr ⟨fun y hy => ?_, ihc⟩, fun x hx => ?_⟩
    · exact ihm y (List.mem_of_mem_head? hy)
    · rcases List.mem_cons.mp hx with rfl | hx
      · exact Nat.le_add_right _ _
      · exact le_trans (Nat.le_add_right _ _) (ihm x hx)

/-- The reported progress values are themselves non-decreasing. -/
lemma progressReports_chain (total : Nat) (chunks : List Nat) :
    List.Chain' (· ≤ ·) (progressReports total chunks) := by
  unfold progressReports
  split
  · exact List.chain'_map_of_chain' _ (fun a b h => reportAt_mono total h)
      (runningTotals_chain chunks 0).1
  · exact List.chain'_nil

/-- Decimal length of every residual-seconds value. -/
lemma toStringLenLt60 :
    ∀ m : Fin 60, (toString m.val).length = if m.val < 10 then 1 else 2 := by
  decide

/-! ### Claim theorems -/

/-- C3: in the player's buffering download, for every successful full
download the reported progress sequence is non-decreasing, every value
written before completion is strictly below 100 (the loop caps at 99),
and 100 is exactly the final value, written only after the body has been
fully read and the blob assembled. -/
theorem c3_progress_monotone_capped (total : Nat) (chunks : List Nat) :
    List.Chain' (· ≤ ·) (successTrace total chunks) ∧
    (∀ q ∈ (0 : ℚ) :: progressReports total chunks, q < 100) ∧
    (successTrace total chunks).getLast? = some 100 := by
  refine ⟨?_, ?_, ?_⟩
  · unfold successTrace
    refine List.chain'_cons'.mpr ⟨fun y hy => ?_, ?_⟩
    · have hm := List.mem_of_mem_head? hy
      rcases List.mem_append.mp hm with hm | hm
      · obtain ⟨l, rfl⟩ := mem_progressReports hm
        exact reportAt_nonneg total l
      · rcases List.mem_singleton.mp hm with rfl
        norm_num
    · refine List.Chain'.append (progressReports_chain total chunks)
        (List.chain'_singleton _) (fun x hx y hy => ?_)
      obtain ⟨l, rfl⟩ := mem_progressReports (List.mem_of_mem_getLast? hx)
      rcases List.mem_singleton.mp (List.mem_of_mem_head? hy) with rfl
      exact le_trans (reportAt_le_99 total l) (by norm_num)
  · intro q hq
    rcases List.mem_cons.mp hq with rfl | hq
    · norm_num
    · obtain ⟨l, rfl⟩ := mem_progressReports hq
      exact lt_of_le_of_lt (reportAt_le_99 total l) (by norm_num)
  · unfold successTrace
    rw [← List.cons_append, List.getLast?_concat]

/-- C3 witness at a concrete download. -/
theorem c3_progress_monotone_capped_witness :
    List.Chain' (· ≤ ·) (successTrace 10 [3, 4, 3]) ∧
    (successTrace 10 [3, 4, 3]).getLast? = some 100 :=
  ⟨(c3_progress_monotone_capped 10 [3, 4, 3]).1,
   (c3_progress_monotone_capped 10 [3, 4, 3]).2.2⟩

/-- C4: a transfer whose teardown flag is set performs no observable
state transition at all — no blob handle, no fallback, no progress
write; when the flag is not set, the direct-stream fallback is activated
exactly by a non-abort failure; and the mid-loop progress writes (which
can still fire while the teardown races the loop) never reach 100. -/
theorem c4_aborted_transfer_silent (o : FetchOutcome) (st : PlayerSt) :
    finishFetch o true st = st ∧
    ((finishFetch o false st).useDirectStream = true ↔
      o = .failure false ∨ st.useDirectStream = true) ∧
    (∀ total chunks, ∀ q ∈ progressReports total chunks, q ≤ 99) := by
  refine ⟨?_, ?_, ?_⟩
  · cases o with
    | success u => simp [finishFetch]
    | failure b => cases b <;> simp [finishFetch]
  · cases o with
    | success u => simp [finishFetch]
    | failure b => cases b <;> simp [finishFetch]
  · intro total chunks q hq
    obtain ⟨l, rfl⟩ := mem_progressReports hq
    exact reportAt_le_99 total l

/-- C4 witness at a concrete outcome and state. -/
theorem c4_aborted_transfer_silent_witness :
    finishFetch (.failure false) true ⟨none, 0, false, false⟩ = ⟨none, 0, false, false⟩ ∧
    ((finishFetch (.failure false) false ⟨none, 0, false, false⟩).useDirectStream = true ↔
      FetchOutcome.failure false = .failure false ∨
      (⟨none, 0, false, false⟩ : PlayerSt).useDirectStream = true) :=
  ⟨(c4_aborted_transfer_silent (.failure false) ⟨none, 0, false, false⟩).1,
   (c4_aborted_transfer_silent (.failure false) ⟨none, 0, false, false⟩).2.1⟩

/-- C5: the code violates the claimed blob lifecycle.  After a mounted
player completes a download and unmounts, the cleanup (lines 109-112 of
`VideoPlayer.tsx`) only aborts the fetch and never revokes the held
object URL, so a blob outlives the player; and a download that completes
after its abort flag was set mints an object URL that is never held nor
revoked, so two blobs can be live at once. -/
theorem c5_blob_lifecycle_bug :
    (runTrace [.newSource, .finishSuccess false, .cleanup]).live = [0] ∧
    (runTrace [.newSource, .finishSuccess false, .cleanup]).held = some 0 ∧
    (runTrace [.newSource, .finishSuccess true, .newSource, .finishSuccess false]).live
      = [0, 1] := by
  decide

/-- C8: `formatDuration` renders minutes unpadded with no hour field,
then a colon, then the seconds zero-padded to width two; with the three
specified sample values. -/
theorem c8_formatDuration_spec :
    formatDuration 125 = "2:05" ∧ formatDuration 59 = "0:59" ∧
    formatDuration 3605 = "60:05" ∧
    ∀ n : Nat, ∃ mPart sPart : String,
      formatDuration n = mPart ++ ":" ++ sPart ∧
      mPart = toString (n / 60) ∧ sPart.length = 2 := by
  refine ⟨rfl, rfl, rfl, fun n => ?_⟩
  have h60 : n % 60 < 60 := Nat.mod_lt _ (by norm_num)
  have hlen : (toString (n % 60)).length = if n % 60 < 10 then 1 else 2 := by
    have := toStringLenLt60 ⟨n % 60, h60⟩
    exact this
  refine ⟨toString (n / 60),
    (if n % 60 < 10 then "0" else "") ++ toString (n % 60), ?_, rfl, ?_⟩
  · unfold formatDuration
    rw [String.append_assoc]
  · rw [String.length_append]
    by_cases h : n % 60 < 10
    · rw [if_pos h] at hlen ⊢
      rw [hlen]
      decide
    · rw [if_neg h] at hlen ⊢
      rw [hlen]
      decide

/-- C9: the input `https://cdn.example.com/flav123.mp4` ends in a
supported media extension, yet because `av123` occurs inside the file
name, `parseVideoInput` takes the Bilibili pipeline and resolves with a
`bilibili` result, not a `direct` one — under every environment. -/
theorem c9_av_pattern_shadows_direct (env : Env) (now : Nat) :
    mediaExtMatch (jsTrim "https://cdn.example.com/flav123.mp4") = true ∧
    ∃ d, (parseVideoInput env now "https://cdn.example.com/flav123.mp4").result = .ok d ∧
      d.platform = .bilibili ∧ d.platform ≠ .direct := by
  refine ⟨rfl, bilibiliResult env "" "123", rfl, bilibiliResult_platform env "" "123", ?_⟩
  rw [bilibiliResult_platform env "" "123"]
  decide

/-- C1: whenever a Bilibili identifier was extracted, a stream-resolution
response parsing with `code = 0` and a non-empty `url` makes
`parseVideoInput` resolve with `playerType = native` and exactly one
source carrying that url, downloadable; while every stream-resolution
failure (network error, malformed JSON, non-zero code, missing url)
makes it resolve with `playerType = iframe` and exactly one
non-downloadable source. -/
theorem c1_stream_resolution_policy (env : Env) (now : Nat) (input : String) (u : String)
    (hid : (step12v1 env input).2.1 ≠ "" ∨ (step12v1 env input).2.2 ≠ "") :
    (env.stream = some (some ⟨0, u⟩) → u ≠ "" →
      ∃ d, (parseVideoInput env now input).result = .ok d ∧
        d.playerType = .native ∧
        d.sources = [⟨u, "MP4 (Direct)", "High (q=80)", some "Unknown", some true⟩]) ∧
    ((env.stream = none ∨ env.stream = some none ∨
      ∃ j, env.stream = some (some j) ∧ (j.code ≠ 0 ∨ j.url = "")) →
      ∃ d, (parseVideoInput env now input).result = .ok d ∧
        d.playerType = .iframe ∧
        ∃ s, d.sources = [s] ∧ s.isDownloadable = some false) := by
  constructor
  · intro hs hu
    obtain ⟨hpt, hsrc⟩ := bilibiliResult_native (resolveStream_success hs hu)
      hu (step12v1 env input).2.1 (step12v1 env input).2.2
    exact ⟨_, parseVideoInput_result_bili env now input hid, hpt, hsrc⟩
  · intro h
    obtain ⟨hpt, hsrc⟩ := bilibiliResult_iframe (resolveStream_fail h)
      (step12v1 env input).2.1 (step12v1 env input).2.2
    exact ⟨_, parseVideoInput_result_bili env now input hid, hpt, hsrc⟩

/-- C1 witness at a concrete identifier and successful stream response. -/
theorem c1_stream_resolution_policy_witness :
    ((step12v1 ⟨none, none, some (some ⟨0, "https://x/y.mp4"⟩)⟩ "BV1GJ411x7h7").2.1 ≠ "" ∨
     (step12v1 ⟨none, none, some (some ⟨0, "https://x/y.mp4"⟩)⟩ "BV1GJ411x7h7").2.2 ≠ "") ∧
    (∃ d, (parseVideoInput ⟨none, none, some (some ⟨0, "https://x/y.mp4"⟩)⟩ 0
            "BV1GJ411x7h7").result = .ok d ∧
      d.playerType = .native ∧
      d.sources = [⟨"https://x/y.mp4", "MP4 (Direct)", "High (q=80)",
                    some "Unknown", some true⟩]) :=
  ⟨Or.inl (by decide),
   (c1_stream_resolution_policy ⟨none, none, some (some ⟨0, "https://x/y.mp4"⟩)⟩ 0
      "BV1GJ411x7h7" "https://x/y.mp4" (Or.inl (by decide))).1 rfl (by decide)⟩

/-- C7: every resolved parse has a non-empty `sources` array, and when
its `playerType` is `iframe` the source at index 0 — the one the player
renders — is non-downloadable. -/
theorem c7_sources_nonempty_iframe_head (env : Env) (now : Nat) (input : String)
    (d : ParsedVideoData) (h : (parseVideoInput env now input).result = .ok d) :
    d.sources ≠ [] ∧
    (d.playerType = .iframe →
      ∃ s rest, d.sources = s :: rest ∧ s.isDownloadable = some false) := by
  have h' : (parseBody env now (step12v1 env input).1 (step12v1 env input).2.1
              (step12v1 env input).2.2).result = .ok d := h
  simp only [parseBody] at h'
  split at h'
  · -- Bilibili branch
    rcases Except.ok.inj h' with rfl
    simp only [bilibiliResult]
    split
    · refine ⟨by simp, fun hpt => ?_⟩
      exact PlayerType.noConfusion hpt
    · exact ⟨by simp, fun _ => ⟨_, _, rfl, rfl⟩⟩
  · split at h'
    · -- YouTube branch
      rcases Except.ok.inj h' with rfl
      exact ⟨by simp [youtubeResult], fun _ => ⟨_, _, rfl, rfl⟩⟩
    · split at h'
      · -- direct-file branch
        split at h'
        · rcases Except.ok.inj h' with rfl
          rename_i heq
          simp only [directResult, Option.map_eq_some'] at heq
          obtain ⟨t, _, rfl⟩ := heq
          refine ⟨by simp, fun hpt => ?_⟩
          exact PlayerType.noConfusion hpt
        · cases h'
      · cases h'

/-- C7 witness at a concrete YouTube (iframe) parse. -/
theorem c7_sources_nonempty_iframe_head_witness :
    (parseVideoInput ⟨none, none, none⟩ 0 "https://youtu.be/abcdefghijk").result =
      .ok (youtubeResult "abcdefghijk") ∧
    (youtubeResult "abcdefghijk").sources ≠ [] ∧
    ((youtubeResult "abcdefghijk").playerType = .iframe →
      ∃ s rest, (youtubeResult "abcdefghijk").sources = s :: rest ∧
        s.isDownloadable = some false) :=
  ⟨rfl, c7_sources_nonempty_iframe_head ⟨none, none, none⟩ 0 "https://youtu.be/abcdefghijk"
    (youtubeResult "abcdefghijk") rfl⟩

/-- `hasInfix` decides contiguous containment. -/
lemma hasInfix_iff (hay needle : List Char) :
    hasInfix hay needle = true ↔ needle <:+: hay := by
  induction hay with
  | nil =>
    show (needle.isPrefixOf [] || false) = true ↔ _
    simp
  | cons c rest ih =>
    show (needle.isPrefixOf (c :: rest) || hasInfix rest needle) = true ↔ _
    rw [Bool.or_eq_true, List.isPrefixOf_iff_prefix, ih, List.infix_cons_iff]

/-- Trimming yields a contiguous substring of the original. -/
lemma jsTrimSub (s : String) : (jsTrim s).data <:+: s.data := by
  have h1 : s.data.dropWhile isJsWhitespace <:+ s.data := List.dropWhile_suffix _
  have h2 : (s.data.dropWhile isJsWhitespace).reverse.dropWhile isJsWhitespace <:+
      (s.data.dropWhile isJsWhitespace).reverse := List.dropWhile_suffix _
  have h3 : ((s.data.dropWhile isJsWhitespace).reverse.dropWhile isJsWhitespace).reverse <+:
      s.data.dropWhile isJsWhitespace := by
    rw [← List.reverse_suffix, List.reverse_reverse]
    exact h2
  exact h3.isInfix.trans h1.isInfix

/-- A substring of the trimmed input is a substring of the input. -/
lemma jsIncludes_of_trim {s t : String} (h : jsIncludes (jsTrim s) t = true) :
    jsIncludes s t = true := by
  rw [jsIncludes, hasInfix_iff] at h ⊢
  exact h.trans (jsTrimSub s)

/-- An appended tail is always a substring. -/
lemma jsIncludes_append_self (a b : String) : jsIncludes (a ++ b) b = true := by
  rw [jsIncludes, hasInfix_iff, String.data_append]
  exact (List.suffix_append a.data b.data).isInfix

/-- C2 (counterexample): on `"file%GG.mp4"` the direct-file pattern
matches (and no other platform pattern does), yet `parseVideoInput`
rejects — the unguarded `decodeURIComponent` on the file name throws
`URIError` — contradicting the claimed "rejects only when no platform
pattern matches". -/
theorem c2_counterexample :
    mediaExtMatch (jsTrim "file%GG.mp4") = true ∧
    bvFind (jsTrim "file%GG.mp4").data = none ∧
    avFind (jsTrim "file%GG.mp4").data = none ∧
    ytFind (jsTrim "file%GG.mp4").data = none ∧
    (parseVideoInput ⟨none, none, none⟩ 0 "file%GG.mp4").result =
      .error "URIError: URI malformed" :=
  ⟨rfl, rfl, rfl, rfl, by decide⟩

/-- C2 (amended): `parseVideoInput` rejects exactly when, after
trimming and short-link derivation, no Bilibili identifier was
extracted, the YouTube pattern does not match, and the direct-file
check either fails too or succeeds on a file name whose percent-escapes
`decodeURIComponent` cannot decode; every short-link, metadata and
stream failure is otherwise absorbed into a resolved record. -/
theorem c2_amended_rejects_iff (env : Env) (now : Nat) (input : String) :
    (∃ e, (parseVideoInput env now input).result = .error e) ↔
      ((step12v1 env input).2.1 = "" ∧ (step12v1 env input).2.2 = "" ∧
       ytFind (step12v1 env input).1.data = none ∧
       (mediaExtMatch (step12v1 env input).1 = false ∨
        decodeURIComponent (fileNameOf (step12v1 env input).1) = none)) := by
  have hres : (parseVideoInput env now input).result =
      (parseBody env now (step12v1 env input).1 (step12v1 env input).2.1
        (step12v1 env input).2.2).result := rfl
  rw [hres]
  simp only [parseBody]
  by_cases hid : (step12v1 env input).2.1 ≠ "" ∨ (step12v1 env input).2.2 ≠ ""
  · rw [if_pos hid]
    constructor
    · rintro ⟨e, he⟩
      cases he
    · rintro ⟨h1, h2, -⟩
      rcases hid with hid | hid
      exacts [absurd h1 hid, absurd h2 hid]
  · rw [if_neg hid]
    push_neg at hid
    obtain ⟨h1, h2⟩ := hid
    cases hyt : ytFind (step12v1 env input).1.data with
    | some v => simp [h1, h2]
    | none =>
      by_cases hme : mediaExtMatch (step12v1 env input).1 = true
      · rw [if_pos hme]
        cases hdc : decodeURIComponent (fileNameOf (step12v1 env input).1) with
        | some t =>
          have hd : directResult (step12v1 env input).1 =
              some { id := "direct_file", title := t, platform := .direct,
                     playerType := .native, thumbnailUrl := none, duration := none,
                     sources := [⟨(step12v1 env input).1, "Original", "Source",
                                  some "Unknown", some true⟩],
                     description := none } := by
            simp [directResult, hdc]
          rw [hd]
          simp [h1, h2, hme]
        | none =>
          have hd : directResult (step12v1 env input).1 = none := by
            simp [directResult, hdc]
          rw [hd]
          simp [h1, h2]
      · rw [if_neg hme]
        simp only [Bool.not_eq_true] at hme
        simp [h1, h2, hme]

/-- C6 (counterexample): the stream-resolution call of a Bilibili parse
issues exactly the proxied request `streamProxyUrl`; the outer proxy URL
carries the `&t=` timestamp, but the inner third-party parser target URL
`streamParseUrl` carries no `t` query parameter at all, so the claim
that the timestamp is on both URLs fails. -/
theorem c6_counterexample :
    (parseVideoInput ⟨none, none, none⟩ 42 "BV1GJ411x7h7").requests =
      [metaProxyUrl "BV1GJ411x7h7" "" 42, streamProxyUrl "BV1GJ411x7h7" "" 42] ∧
    streamProxyUrl "BV1GJ411x7h7" "" 42 =
      PROXY_RAW ++ encodeURIComponent (streamParseUrl "BV1GJ411x7h7" "") ++
        "&t=" ++ toString 42 ∧
    jsIncludes (streamParseUrl "BV1GJ411x7h7" "") "&t=" = false ∧
    jsIncludes (streamParseUrl "BV1GJ411x7h7" "") "?t=" = false :=
  ⟨rfl, rfl, by decide, by decide⟩

/-- C6 (amended): every stream-resolution call carries the
cache-defeating timestamp parameter on the outer proxy URL (the inner
parser target URL carries none). -/
theorem c6_amended_outer_timestamp (env : Env) (now : Nat) (input : String)
    (hid : (step12v1 env input).2.1 ≠ "" ∨ (step12v1 env input).2.2 ≠ "") :
    streamProxyUrl (step12v1 env input).2.1 (step12v1 env input).2.2 now ∈
      (parseVideoInput env now input).requests ∧
    jsIncludes (streamProxyUrl (step12v1 env input).2.1 (step12v1 env input).2.2 now)
      ("&t=" ++ toString now) = true := by
  constructor
  · have hreq : (parseVideoInput env now input).requests =
        (if jsIncludes (jsTrim input) "b23.tv" then [shortResolveUrl (jsTrim input) now]
         else []) ++
          (parseBody env now (step12v1 env input).1 (step12v1 env input).2.1
            (step12v1 env input).2.2).requests := rfl
    rw [hreq]
    simp only [parseBody]
    rw [if_pos hid]
    simp
  · have hgrp : streamProxyUrl (step12v1 env input).2.1 (step12v1 env input).2.2 now =
        (PROXY_RAW ++ encodeURIComponent (streamParseUrl (step12v1 env input).2.1
          (step12v1 env input).2.2)) ++ ("&t=" ++ toString now) := by
      unfold streamProxyUrl
      rw [String.append_assoc]
    rw [hgrp]
    exact jsIncludes_append_self _ _

/-- C6 witness at a concrete identifier. -/
theorem c6_amended_outer_timestamp_witness :
    ((step12v1 ⟨none, none, none⟩ "BV1GJ411x7h7").2.1 ≠ "" ∨
     (step12v1 ⟨none, none, none⟩ "BV1GJ411x7h7").2.2 ≠ "") ∧
    streamProxyUrl (step12v1 ⟨none, none, none⟩ "BV1GJ411x7h7").2.1
        (step12v1 ⟨none, none, none⟩ "BV1GJ411x7h7").2.2 5 ∈
      (parseVideoInput ⟨none, none, none⟩ 5 "BV1GJ411x7h7").requests :=
  ⟨Or.inl (by decide),
   (c6_amended_outer_timestamp ⟨none, none, none⟩ 5 "BV1GJ411x7h7" (Or.inl (by decide))).1⟩

/-- C10: the two versions of `parseVideoInput` present in the source
agree on every input that does not contain the substring `b23.tv`,
for every environment (in particular, for identical metadata and
stream-resolution responses). -/
theorem c10_versions_agree_off_shortlink (input : String)
    (h : jsIncludes input "b23.tv" = false) (env : Env) (now : Nat) :
    parseVideoInput env now input = parseVideoInput2 env now input := by
  have h0 : jsIncludes (jsTrim input) "b23.tv" = false := by
    cases hq : jsIncludes (jsTrim input) "b23.tv"
    · rfl
    · rw [jsIncludes_of_trim hq] at h
      cases h
  have hstep : step12v1 env input = step12v2 env input := by
    simp only [step12v1, step12v2, h0, Bool.false_eq_true, if_false]
    cases hbv : bvFind (jsTrim input).data with
    | some id => simp
    | none =>
      cases hav : avFind (jsTrim input).data with
      | some d => simp
      | none => simp
  simp only [parseVideoInput, parseVideoInput2, hstep]

/-- C10 witness at a concrete non-short-link input. -/
theorem c10_versions_agree_off_shortlink_witness :
    jsIncludes "BV1GJ411x7h7" "b23.tv" = false ∧
    parseVideoInput ⟨none, none, none⟩ 7 "BV1GJ411x7h7" =
      parseVideoInput2 ⟨none, none, none⟩ 7 "BV1GJ411x7h7" :=
  ⟨by decide, c10_versions_agree_off_shortlink "BV1GJ411x7h7" (by decide) ⟨none, none, none⟩ 7⟩

end VidParse
